import Mathlib

/-!
Shallow embedding of the spectrum-sensing monitoring backend: a Gin HTTP
server keeping a bounded in-memory buffer of IQ samples (`main.go`, the
unnamed server source), and the companion `faker` generator.

Machine `float64` values are idealised as exact rationals (`ℚ`); the
transcendental `math.Sin` / `math.Cos` of the generator are abstract
functions `ℚ → ℚ`.  JSON decoding follows Go's `encoding/json` semantics
as exercised by the claims: unmarshalling into a `[]IQData` accepts a JSON
array (or `null`, which yields the empty slice), each element must be an
object (or `null`, yielding the zero value), unknown object fields are
ignored, a present field must be a JSON number (or `null`, which leaves
the zero value), and any other shape is a decoding error.  (Go would also
match struct field names case-insensitively; the claims only involve
exact-case or absent keys, so the model matches keys exactly.)
-/

namespace SpectrumMonitor

/-- `IQData` from the server source: a single IQ data point
`{time, real, imaginary}`, `float64` fields modelled as `ℚ`. -/
structure IQData where
  time : ℚ
  real : ℚ
  imaginary : ℚ
deriving DecidableEq, Repr

/-- A JSON value, as far as the server's decoding is concerned. -/
inductive Json where
  | null : Json
  | bool (b : Bool) : Json
  | num (q : ℚ) : Json
  | str (s : String) : Json
  | arr (elems : List Json) : Json
  | obj (fields : List (String × Json)) : Json

/-- A request body: either raw bytes that are not valid JSON at all, or a
parsed JSON value. -/
inductive Body where
  | malformed : Body
  | json (j : Json) : Body

/-- One key/value pair of a JSON object applied to an `IQData` being
decoded (Go `encoding/json` struct decoding): a known key must carry a
number (or `null`, which leaves the current value); unknown keys are
ignored. -/
def applyField (d : IQData) (k : String) (v : Json) : Except String IQData :=
  match k with
  | "time" =>
    match v with
    | .num q => .ok { d with time := q }
    | .null => .ok d
    | _ => .error "cannot unmarshal into Go value of type float64"
  | "real" =>
    match v with
    | .num q => .ok { d with real := q }
    | .null => .ok d
    | _ => .error "cannot unmarshal into Go value of type float64"
  | "imaginary" =>
    match v with
    | .num q => .ok { d with imaginary := q }
    | .null => .ok d
    | _ => .error "cannot unmarshal into Go value of type float64"
  | _ => .ok d

/-- Fold the fields of a JSON object into an `IQData`, starting from the
zero value; the first ill-typed field aborts decoding. -/
def decodeFields (d : IQData) : List (String × Json) → Except String IQData
  | [] => .ok d
  | (k, v) :: fs =>
    match applyField d k v with
    | .ok d2 => decodeFields d2 fs
    | .error e => .error e

/-- Decode one array element into an `IQData` (Go: absent fields keep the
zero value `0.0`; `null` decodes to the zero value; non-objects fail). -/
def decodeIQData : Json → Except String IQData
  | .null => .ok ⟨0, 0, 0⟩
  | .obj fs => decodeFields ⟨0, 0, 0⟩ fs
  | _ => .error "cannot unmarshal into Go value of type main.IQData"

/-- Decode a list of JSON values element-wise; the first failure aborts. -/
def decodeList : List Json → Except String (List IQData)
  | [] => .ok []
  | j :: js =>
    match decodeIQData j with
    | .ok d =>
      match decodeList js with
      | .ok ds => .ok (d :: ds)
      | .error e => .error e
    | .error e => .error e

/-- `c.ShouldBindJSON(&newData)` for `newData : []IQData`: the body must
be valid JSON and either an array of decodable elements or `null` (which
Go unmarshals into a nil slice without error). -/
def decodeBatch : Body → Except String (List IQData)
  | .malformed => .error "invalid character in JSON input"
  | .json .null => .ok []
  | .json (.arr js) => decodeList js
  | .json _ => .error "cannot unmarshal into Go value of type []main.IQData"

/-- `maxDataPoints` from the server source. -/
def maxDataPoints : Nat := 1000

/-- The trim step of the webhook handler: `if len(iqStore) > maxDataPoints
{ iqStore = iqStore[len(iqStore)-maxDataPoints:] }`. -/
def trimStore (l : List IQData) : List IQData :=
  if maxDataPoints < l.length then l.drop (l.length - maxDataPoints) else l

/-- Go `json.Marshal` of one `IQData` (struct field order). -/
def encodeIQData (d : IQData) : Json :=
  .obj [("time", .num d.time), ("real", .num d.real),
        ("imaginary", .num d.imaginary)]

/-- HTTP method, as far as the router distinguishes them. -/
inductive Method where
  | GET : Method
  | POST : Method
  | OPTIONS : Method
deriving DecidableEq, Repr

/-- An HTTP request reaching the router. -/
structure Request where
  method : Method
  path : String
  body : Body

/-- An HTTP response: status code, headers, optional JSON body. -/
structure Response where
  status : Nat
  headers : List (String × String)
  body : Option Json

/-- Go `http.Header.Set`: replace the value of an existing key, or add
the key. -/
def setHeader (hs : List (String × String)) (k v : String) :
    List (String × String) :=
  if hs.any (fun p => p.1 = k) then
    hs.map (fun p => if p.1 = k then (k, v) else p)
  else hs ++ [(k, v)]

/-- The headers written by the CORS middleware, in source order: the
allow-origin header is `Set` twice (`http://localhost:5173`, then `*`),
so the second write wins. -/
def corsHeaders : List (String × String) :=
  setHeader
    (setHeader
      (setHeader
        (setHeader
          (setHeader [] "Access-Control-Allow-Origin" "http://localhost:5173")
          "Access-Control-Allow-Origin" "*")
        "Access-Control-Allow-Methods" "POST, GET, OPTIONS")
      "Access-Control-Allow-Headers" "Content-Type, Authorization")
    "Access-Control-Allow-Credentials" "true"

/-- Response body of a successful webhook POST: `{"status": "received"}`. -/
def ackBody : Json := .obj [("status", .str "received")]

/-- Response body of a failed webhook POST: `{"error": "Invalid JSON format"}`. -/
def errBody : Json := .obj [("error", .str "Invalid JSON format")]

/-- The `POST /webhook` handler: bind the JSON body into `[]IQData`; on
failure answer 400 and leave the store alone; on success append the whole
batch, trim to `maxDataPoints`, and answer 200. -/
def postWebhook (b : Body) (store : List IQData) :
    Response × List IQData :=
  match decodeBatch b with
  | .error _ => (⟨400, corsHeaders, some errBody⟩, store)
  | .ok newData => (⟨200, corsHeaders, some ackBody⟩, trimStore (store ++ newData))

/-- One request through middleware and router: the CORS middleware sets
the headers and short-circuits `OPTIONS` with 204 before any route logic;
otherwise the two registered routes dispatch, and anything else is Gin's
default 404. -/
def serve (req : Request) (store : List IQData) : Response × List IQData :=
  if req.method = .OPTIONS then (⟨204, corsHeaders, none⟩, store)
  else if req.method = .POST ∧ req.path = "/webhook" then
    postWebhook req.body store
  else if req.method = .GET ∧ req.path = "/api/iq-data" then
    (⟨200, corsHeaders, some (.arr (store.map encodeIQData))⟩, store)
  else (⟨404, corsHeaders, none⟩, store)

/-- The store after serving a sequence of requests. -/
def runStore : List Request → List IQData → List IQData
  | [], s => s
  | r :: rs, s => runStore rs (serve r s).2

/-- The trace of stores after each request of a sequence. -/
def runStores : List Request → List IQData → List (List IQData)
  | [], _ => []
  | r :: rs, s => (serve r s).2 :: runStores rs (serve r s).2

/-- The batch a request successfully appends: nonempty only for a
`POST /webhook` whose body decodes. -/
def decodedBatch (r : Request) : List IQData :=
  if r.method = .POST ∧ r.path = "/webhook" then
    match decodeBatch r.body with
    | .ok l => l
    | .error _ => []
  else []

/-- All samples appended by a request sequence, in arrival order. -/
def allBatches (rs : List Request) : List IQData :=
  (rs.map decodedBatch).flatten

/-- A `POST /webhook` request carrying a well-formed JSON array encoding
the given batch of samples. -/
def postReq (batch : List IQData) : Request :=
  ⟨.POST, "/webhook", .json (.arr (batch.map encodeIQData))⟩

/-- A `GET /api/iq-data` request (the body of a GET is ignored). -/
def getReq : Request := ⟨.GET, "/api/iq-data", .json .null⟩

/-- `generateIQData` from `faker/main.go`: `count` samples starting at
`startTime`, sample `i` at time `t = startTime + 0.1*i` with real part
`sin t` and imaginary part `cos t`; `sin`/`cos` abstract `math.Sin` /
`math.Cos`. -/
def generateIQData (sin cos : ℚ → ℚ) (count : Nat) (startTime : ℚ) :
    List IQData :=
  (List.range count).map fun (i : Nat) =>
    ⟨startTime + (i : ℚ) * (1 / 10), sin (startTime + (i : ℚ) * (1 / 10)),
      cos (startTime + (i : ℚ) * (1 / 10))⟩

/-- The faker main loop's update of `currentTime` between batches:
`currentTime += float64(*dataPoints) * 0.1`. -/
def nextStartTime (count : Nat) (startTime : ℚ) : ℚ :=
  startTime + (count : ℚ) * (1 / 10)

/-- A JSON object carrying only those of the three sample fields that are
present. -/
def optField (k : String) (v : Option ℚ) : List (String × Json) :=
  match v with
  | none => []
  | some q => [(k, .num q)]

/-- A JSON object with an optional subset of the `time`, `real`,
`imaginary` fields (the empty object when all three are absent). -/
def optSampleJson (t r i : Option ℚ) : Json :=
  .obj (optField "time" t ++ optField "real" r ++ optField "imaginary" i)

/-! ## Helper lemmas -/

lemma decodeIQData_encodeIQData (d : IQData) :
    decodeIQData (encodeIQData d) = .ok d := by
  cases d; rfl

lemma decodeList_map_encode (l : List IQData) :
    decodeList (l.map encodeIQData) = .ok l := by
  induction l with
  | nil => rfl
  | cons d l ih => simp [decodeList, decodeIQData_encodeIQData, ih]

lemma decodeBatch_postReq (b : List IQData) :
    decodeBatch (postReq b).body = .ok b := by
  simp [postReq, decodeBatch, decodeList_map_encode]

lemma serve_postReq (b : List IQData) (s : List IQData) :
    serve (postReq b) s =
      (⟨200, corsHeaders, some ackBody⟩, trimStore (s ++ b)) := by
  have h := decodeBatch_postReq b
  simp [serve, postReq, postWebhook] at h ⊢
  rw [h]

lemma trimStore_suffix (l : List IQData) : trimStore l <:+ l := by
  unfold trimStore
  split
  · exact List.drop_suffix _ _
  · exact List.suffix_rfl

lemma trimStore_length (l : List IQData) :
    (trimStore l).length = min l.length maxDataPoints := by
  unfold trimStore
  split <;> simp <;> omega

lemma serve_snd_length (r : Request) (s : List IQData)
    (h : s.length ≤ maxDataPoints) :
    (serve r s).2.length ≤ maxDataPoints := by
  unfold serve
  split
  · exact h
  · split
    · unfold postWebhook
      cases hd : decodeBatch r.body
      · exact h
      · simp [trimStore_length]
    · split
      · exact h
      · exact h

lemma suffix_append_same {α : Type} {a b : List α} (h : a <:+ b)
    (c : List α) : a ++ c <:+ b ++ c := by
  obtain ⟨t, rfl⟩ := h
  exact ⟨t, (List.append_assoc t a c).symm⟩

lemma serve_snd_suffix (r : Request) (s : List IQData) :
    (serve r s).2 <:+ s ++ decodedBatch r := by
  unfold serve decodedBatch
  by_cases h1 : r.method = .OPTIONS
  · simp [h1]
  · by_cases h2 : r.method = .POST ∧ r.path = "/webhook"
    · obtain ⟨hm, hp⟩ := h2
      simp only [hm, hp, postWebhook, if_pos, and_self, if_neg, reduceCtorEq,
        if_false, reduceIte]
      cases hd : decodeBatch r.body with
      | ok l => simp [hd, trimStore_suffix]
      | error e => simp [hd]
    · by_cases h3 : r.method = .GET ∧ r.path = "/api/iq-data"
      · simp [h1, h2, h3]
      · simp [h1, h2, h3]

lemma allBatches_cons (r : Request) (rs : List Request) :
    allBatches (r :: rs) = decodedBatch r ++ allBatches rs := by
  simp [allBatches]

lemma decodedBatch_postReq (b : List IQData) :
    decodedBatch (postReq b) = b := by
  simp [decodedBatch, postReq, decodeBatch, decodeList_map_encode]

lemma runStore_suffix (rs : List Request) (s : List IQData) :
    runStore rs s <:+ s ++ allBatches rs := by
  induction rs generalizing s with
  | nil => simp [runStore, allBatches]
  | cons r rs ih =>
    have h1 : runStore rs (serve r s).2 <:+ (serve r s).2 ++ allBatches rs :=
      ih _
    have h2 : (serve r s).2 ++ allBatches rs <:+
        (s ++ decodedBatch r) ++ allBatches rs :=
      suffix_append_same (serve_snd_suffix r s) _
    have h3 : (s ++ decodedBatch r) ++ allBatches rs =
        s ++ allBatches (r :: rs) := by
      rw [allBatches_cons, List.append_assoc]
    exact (h1.trans h2).trans (h3 ▸ List.suffix_rfl)

lemma suffix_append_split {α : Type} {s a b : List α} (h : s <:+ a ++ b) :
    (∃ t, t <:+ a ∧ s = t ++ b) ∨ s <:+ b := by
  induction a with
  | nil => right; simpa using h
  | cons x a ih =>
    rw [List.cons_append] at h
    rcases List.suffix_cons_iff.1 h with h | h
    · left
      exact ⟨x :: a, List.suffix_rfl, by simpa using h⟩
    · rcases ih h with ⟨t, ht, rfl⟩ | h
      · exact Or.inl ⟨t, List.suffix_cons_iff.2 (Or.inr ht), rfl⟩
      · exact Or.inr h

lemma runStores_length_le (rs : List Request) (s₀ : List IQData)
    (h0 : s₀.length ≤ maxDataPoints) :
    ∀ s ∈ runStores rs s₀, s.length ≤ maxDataPoints := by
  induction rs generalizing s₀ with
  | nil => intro s hs; simp [runStores] at hs
  | cons r rs ih =>
    intro s hs
    simp only [runStores, List.mem_cons] at hs
    rcases hs with rfl | hs
    · exact serve_snd_length r s₀ h0
    · exact ih _ (serve_snd_length r s₀ h0) s hs

/-! ## Claims -/

/-- C1: for every sequence of requests (in particular every sequence of
`POST /webhook` appends) served from the initially empty buffer, after
each operation the buffer length is at most `maxDataPoints = 1000`. -/
theorem webhook_capacity_invariant (rs : List Request) (s : List IQData)
    (h : s ∈ runStores rs []) : s.length ≤ maxDataPoints :=
  runStores_length_le rs [] (by simp) s h

/-- Witness for C1 at a concrete one-request history. -/
theorem webhook_capacity_invariant_witness :
    [(⟨1, 2, 3⟩ : IQData)] ∈ runStores [postReq [⟨1, 2, 3⟩]] [] ∧
    [(⟨1, 2, 3⟩ : IQData)].length ≤ maxDataPoints :=
  ⟨by decide, webhook_capacity_invariant [postReq [⟨1, 2, 3⟩]] _ (by decide)⟩

/-- C4: a `POST /webhook` whose body does not bind into `[]IQData` is
answered `400 {"error": "Invalid JSON format"}` and leaves the buffer
unchanged. -/
theorem malformed_body_rejected (b : Body) (store : List IQData)
    (msg : String) (h : decodeBatch b = .error msg) :
    serve ⟨.POST, "/webhook", b⟩ store =
      (⟨400, corsHeaders, some errBody⟩, store) := by
  simp [serve, postWebhook, h]

/-- Witness for C4 at the body `{"not": "an array"}`. -/
theorem malformed_body_rejected_witness :
    decodeBatch (.json (.obj [("not", .str "an array")])) =
      .error "cannot unmarshal into Go value of type []main.IQData" ∧
    serve ⟨.POST, "/webhook", .json (.obj [("not", .str "an array")])⟩ [] =
      (⟨400, corsHeaders, some errBody⟩, []) :=
  ⟨rfl, malformed_body_rejected _ _ _ rfl⟩

/-- C5: a `POST /webhook` whose body binds to a batch appends the whole
batch (then trims) and answers `200 {"status": "received"}`; otherwise the
buffer is untouched — the append is all-or-nothing per request. -/
theorem webhook_success_all_or_nothing (b : Body) (store : List IQData) :
    (∀ batch, decodeBatch b = .ok batch →
      serve ⟨.POST, "/webhook", b⟩ store =
        (⟨200, corsHeaders, some ackBody⟩, trimStore (store ++ batch))) ∧
    (∀ msg, decodeBatch b = .error msg →
      (serve ⟨.POST, "/webhook", b⟩ store).2 = store) := by
  constructor
  · intro batch h
    simp [serve, postWebhook, h]
  · intro msg h
    simp [serve, postWebhook, h]

/-- Witness for C5 at a concrete one-sample batch. -/
theorem webhook_success_all_or_nothing_witness :
    decodeBatch (postReq [(⟨1, 2, 3⟩ : IQData)]).body = .ok [⟨1, 2, 3⟩] ∧
    serve ⟨.POST, "/webhook", (postReq [(⟨1, 2, 3⟩ : IQData)]).body⟩ [] =
      (⟨200, corsHeaders, some ackBody⟩, trimStore ([] ++ [⟨1, 2, 3⟩])) :=
  ⟨decodeBatch_postReq _,
    (webhook_success_all_or_nothing _ _).1 _ (decodeBatch_postReq _)⟩

/-- C6: `GET /api/iq-data` answers 200 with the buffer contents in
insertion order, does not mutate the buffer, and is idempotent: a second
snapshot with no intervening append is identical. -/
theorem iq_data_query_idempotent (store : List IQData) :
    serve getReq store =
      (⟨200, corsHeaders, some (.arr (store.map encodeIQData))⟩, store) ∧
    serve getReq (serve getReq store).2 = serve getReq store :=
  ⟨rfl, rfl⟩

/-- C8: every `OPTIONS` request, to any path, is answered 204 with no
body and the buffer untouched (the middleware aborts before route logic),
and the headers carry the four CORS values — in particular the
allow-origin header, written twice by the source, ends up `*`. -/
theorem options_preflight (path : String) (b : Body) (store : List IQData) :
    serve ⟨.OPTIONS, path, b⟩ store = (⟨204, corsHeaders, none⟩, store) ∧
    List.lookup "Access-Control-Allow-Origin" corsHeaders = some "*" ∧
    List.lookup "Access-Control-Allow-Methods" corsHeaders =
      some "POST, GET, OPTIONS" ∧
    List.lookup "Access-Control-Allow-Headers" corsHeaders =
      some "Content-Type, Authorization" ∧
    List.lookup "Access-Control-Allow-Credentials" corsHeaders =
      some "true" :=
  ⟨rfl, rfl, rfl, rfl, rfl⟩

/-- C2: posting a batch longer than the capacity to the empty buffer
leaves exactly the last `maxDataPoints` elements of the batch, in their
original order, as both the store and the `GET /api/iq-data` snapshot. -/
theorem eviction_keeps_last (batch : List IQData)
    (h : maxDataPoints < batch.length) :
    runStore [postReq batch] [] =
      batch.drop (batch.length - maxDataPoints) ∧
    (runStore [postReq batch] []).length = maxDataPoints ∧
    (serve getReq (runStore [postReq batch] [])).1.body =
      some (.arr ((batch.drop (batch.length - maxDataPoints)).map
        encodeIQData)) := by
  have h1 : runStore [postReq batch] [] = trimStore batch := by
    simp [runStore, serve_postReq]
  have h2 : trimStore batch = batch.drop (batch.length - maxDataPoints) := by
    unfold trimStore
    rw [if_pos h]
  refine ⟨h1.trans h2, ?_, ?_⟩
  · rw [h1, trimStore_length]
    omega
  · rw [h1, h2]
    rfl

/-- Witness for C2 at a concrete 1001-element batch. -/
theorem eviction_keeps_last_witness :
    maxDataPoints < (List.replicate 1001 (⟨1, 0, 0⟩ : IQData)).length ∧
    (runStore [postReq (List.replicate 1001 (⟨1, 0, 0⟩ : IQData))] [] =
      (List.replicate 1001 (⟨1, 0, 0⟩ : IQData)).drop
        ((List.replicate 1001 (⟨1, 0, 0⟩ : IQData)).length - maxDataPoints) ∧
    (runStore [postReq (List.replicate 1001 (⟨1, 0, 0⟩ : IQData))] []).length =
      maxDataPoints ∧
    (serve getReq
      (runStore [postReq (List.replicate 1001 (⟨1, 0, 0⟩ : IQData))] [])).1.body =
      some (.arr (((List.replicate 1001 (⟨1, 0, 0⟩ : IQData)).drop
        ((List.replicate 1001 (⟨1, 0, 0⟩ : IQData)).length - maxDataPoints)).map
          encodeIQData))) :=
  ⟨by norm_num [maxDataPoints],
    eviction_keeps_last _ (by norm_num [maxDataPoints])⟩

/-- C3: after appending `B1` then `B2` (and then any further requests),
the store decomposes as `t0 ++ t1 ++ u ++ v` where `t1` is a suffix of
`B1`, `u` a suffix of `B2` and `t0`, `v` come from the older store and
the later requests: surviving `B1` elements keep their relative order and
all precede the `B2` elements, which keep theirs. -/
theorem batch_order_preservation (store₀ B1 B2 : List IQData)
    (rs : List Request) :
    ∃ t0 t1 u v,
      runStore (postReq B1 :: postReq B2 :: rs) store₀ =
        t0 ++ t1 ++ u ++ v ∧
      t0 <:+ store₀ ∧ t1 <:+ B1 ∧ u <:+ B2 ∧ v <:+ allBatches rs ∧
      (t0 ≠ [] → t1 = B1) ∧ (t1 ≠ [] → u = B2) ∧
      (u ≠ [] → v = allBatches rs) := by
  have hsuf := runStore_suffix (postReq B1 :: postReq B2 :: rs) store₀
  rw [allBatches_cons, allBatches_cons, decodedBatch_postReq,
    decodedBatch_postReq] at hsuf
  have hsuf2 : runStore (postReq B1 :: postReq B2 :: rs) store₀ <:+
      ((store₀ ++ B1) ++ B2) ++ allBatches rs := by
    simpa [List.append_assoc] using hsuf
  rcases suffix_append_split hsuf2 with ⟨t, ht, heq⟩ | hs
  · rcases suffix_append_split ht with ⟨t', ht', rfl⟩ | ht2
    · rcases suffix_append_split ht' with ⟨t0, ht0, rfl⟩ | ht3
      · exact ⟨t0, B1, B2, allBatches rs,
          by simpa [List.append_assoc] using heq, ht0, List.suffix_rfl,
          List.suffix_rfl, List.suffix_rfl, fun _ => rfl, fun _ => rfl,
          fun _ => rfl⟩
      · exact ⟨[], t', B2, allBatches rs,
          by simpa [List.append_assoc] using heq, List.nil_suffix, ht3,
          List.suffix_rfl, List.suffix_rfl, fun hne => (hne rfl).elim,
          fun _ => rfl, fun _ => rfl⟩
    · exact ⟨[], [], t, allBatches rs, by simpa using heq, List.nil_suffix,
        List.nil_suffix, ht2, List.suffix_rfl, fun hne => (hne rfl).elim,
        fun hne => (hne rfl).elim, fun _ => rfl⟩
  · exact ⟨[], [], [], runStore (postReq B1 :: postReq B2 :: rs) store₀,
      by simp, List.nil_suffix, List.nil_suffix, List.nil_suffix, hs,
      fun hne => (hne rfl).elim, fun hne => (hne rfl).elim,
      fun hne => (hne rfl).elim⟩

/-- C9: each generated sample `i` carries time `t0 + 0.1*i` and real and
imaginary parts exactly `sin`/`cos` of its own time; the times strictly
increase within a batch, and every time of a batch precedes every time of
the following batch (whose start is advanced by `0.1 * count`). -/
theorem generator_sin_cos (sin cos : ℚ → ℚ) (count : Nat) (t0 : ℚ) :
    (∀ i, i < count →
      (generateIQData sin cos count t0)[i]? =
        some ⟨t0 + (i : ℚ) * (1 / 10), sin (t0 + (i : ℚ) * (1 / 10)),
          cos (t0 + (i : ℚ) * (1 / 10))⟩) ∧
    (generateIQData sin cos count t0).Pairwise
      (fun a b => a.time < b.time) ∧
    (∀ a ∈ generateIQData sin cos count t0,
      ∀ b ∈ generateIQData sin cos count (nextStartTime count t0),
        a.time < b.time) := by
  refine ⟨?_, ?_, ?_⟩
  · intro i hi
    rw [generateIQData, List.getElem?_map, List.getElem?_range hi]
    rfl
  · rw [generateIQData, List.pairwise_map]
    refine (List.pairwise_lt_range count).imp ?_
    intro a b hab
    have hq : (a : ℚ) < (b : ℚ) := by exact_mod_cast hab
    have hm := mul_lt_mul_of_pos_right hq (show (0 : ℚ) < 1 / 10 by norm_num)
    simpa using add_lt_add_left hm t0
  · intro a ha b hb
    rw [generateIQData, List.mem_map] at ha hb
    obtain ⟨i, hi, rfl⟩ := ha
    obtain ⟨j, hj, rfl⟩ := hb
    rw [List.mem_range] at hi hj
    have h1 : (i : ℚ) * (1 / 10) < (count : ℚ) * (1 / 10) :=
      mul_lt_mul_of_pos_right (by exact_mod_cast hi)
        (show (0 : ℚ) < 1 / 10 by norm_num)
    have h2 : 0 ≤ (j : ℚ) * (1 / 10) := by positivity
    show t0 + (i : ℚ) * (1 / 10) <
      nextStartTime count t0 + (j : ℚ) * (1 / 10)
    rw [nextStartTime]
    linarith

/-- Witness for C9: a one-element batch starting at time 0, with the
identity functions standing in for `sin`/`cos`. -/
theorem generator_sin_cos_witness :
    0 < 1 ∧
    (generateIQData (fun q => q) (fun q => q) 1 0)[0]? =
      some ⟨(0 : ℚ) + ((0 : Nat) : ℚ) * (1 / 10),
        (0 : ℚ) + ((0 : Nat) : ℚ) * (1 / 10),
        (0 : ℚ) + ((0 : Nat) : ℚ) * (1 / 10)⟩ :=
  ⟨by decide,
    (generator_sin_cos (fun q => q) (fun q => q) 1 0).1 0 (by decide)⟩

lemma decodeIQData_optSample (t r i : Option ℚ) :
    decodeIQData (optSampleJson t r i) =
      .ok ⟨t.getD 0, r.getD 0, i.getD 0⟩ := by
  cases t <;> cases r <;> cases i <;> rfl

lemma decodeList_optSample
    (specs : List (Option ℚ × Option ℚ × Option ℚ)) :
    decodeList (specs.map fun s => optSampleJson s.1 s.2.1 s.2.2) =
      .ok (specs.map fun s => ⟨s.1.getD 0, s.2.1.getD 0, s.2.2.getD 0⟩) := by
  induction specs with
  | nil => rfl
  | cons s ss ih => simp [decodeList, decodeIQData_optSample, ih]

/-- C10: an array of objects each carrying any subset of the three sample
fields (the empty object included) is accepted with 200, and every absent
field is appended as `0.0`. -/
theorem missing_fields_default_zero
    (specs : List (Option ℚ × Option ℚ × Option ℚ)) (store : List IQData) :
    serve ⟨.POST, "/webhook",
        .json (.arr (specs.map fun s => optSampleJson s.1 s.2.1 s.2.2))⟩
      store =
      (⟨200, corsHeaders, some ackBody⟩,
        trimStore (store ++ specs.map fun s =>
          ⟨s.1.getD 0, s.2.1.getD 0, s.2.2.getD 0⟩)) := by
  simp [serve, postWebhook, decodeBatch, decodeList_optSample]

end SpectrumMonitor
